import Mathlib

/-!
Verification of the synchronization core of the `gha-debug` repository:
the three-phase idempotent `SoftLock` (src/pkg/softlock/softlock.go) and
the `FileFlag` bridge that drives it from filesystem events
(src/pkg/fileflag/fileflag.go, with later revisions of the same file in
src/unnamed/part_010).

The Go code guards every state transition with a single mutex, so any
set of concurrent calls is equivalent to some serialization of those
calls; the model below therefore treats each public method as an atomic
step on an explicit state record, and sequences of (possibly concurrent)
calls as lists of steps.
-/

/-- State of a `SoftLock` (src/pkg/softlock/softlock.go).

* `startedFlag` embeds the boolean field `_started`;
* `startedCh`, `waitCh`, `doneCh` embed the three one-shot channels
  `started`, `wait`, `done`: `true` means the channel has been closed
  (the signal has fired). -/
structure SoftLock where
  startedFlag : Bool
  startedCh : Bool
  waitCh : Bool
  doneCh : Bool
deriving DecidableEq, Repr

/-- `NewSoftLock`: fresh lock, nothing fired. -/
def NewSoftLock : SoftLock :=
  { startedFlag := false, startedCh := false, waitCh := false, doneCh := false }

/-- `SoftLock.Start`: under the mutex, if the `started` channel is already
closed return `false`; otherwise close it, set `_started`, and return
`_started` (that is, `true`). -/
def SoftLock.Start (l : SoftLock) : SoftLock × Bool :=
  if l.startedCh then (l, false)
  else ({ l with startedCh := true, startedFlag := true }, true)

/-- `SoftLock.Started`: reads the `_started` flag under the mutex. -/
def SoftLock.Started (l : SoftLock) : Bool := l.startedFlag

/-- `SoftLock.Release`: under the mutex, a no-op unless `_started`;
otherwise close the `wait` channel if it is not closed yet. -/
def SoftLock.Release (l : SoftLock) : SoftLock :=
  if !l.startedFlag then l
  else if l.waitCh then l
  else { l with waitCh := true }

/-- `SoftLock.Released`: non-blocking check whether `wait` is closed. -/
def SoftLock.Released (l : SoftLock) : Bool := l.waitCh

/-- `SoftLock.Done`: close the `done` channel if not closed yet. -/
def SoftLock.Done (l : SoftLock) : SoftLock :=
  if l.doneCh then l else { l with doneCh := true }

/-- `SoftLock.Finished`: non-blocking check whether `done` is closed. -/
def SoftLock.Finished (l : SoftLock) : Bool := l.doneCh

/-- `SoftLock.Close`: `Start`, then `Release`, then `Done`. -/
def SoftLock.Close (l : SoftLock) : SoftLock :=
  ((l.Start).1.Release).Done

/-- `SoftLock.Wait` control flow: it blocks the caller exactly when the
`_started` flag is set and the `wait` channel is not yet closed; if
`_started` is unset it returns at the first guard, and if `wait` is
already closed the `select` takes the non-blocking arm. -/
def SoftLock.WaitBlocks (l : SoftLock) : Bool :=
  if !l.startedFlag then false
  else if l.waitCh then false
  else true

/-- The state-changing public operations of `SoftLock`; the query and
wait operations are included because the claims quantify over the whole
public interface, but they write nothing, so they step to the same
state. -/
inductive SLOp
  | start
  | release
  | doneOp
  | closeOp
  | startedQ
  | releasedQ
  | finishedQ
  | waitOp
  | waitForStartOp
  | waitForDoneOp
deriving DecidableEq, Repr

/-- One public call, viewed as a step on the lock state. -/
def SoftLock.applyOp (l : SoftLock) : SLOp → SoftLock
  | .start => (l.Start).1
  | .release => l.Release
  | .doneOp => l.Done
  | .closeOp => l.Close
  | _ => l

/-- A sequence of public calls (any serialization of concurrent calls). -/
def SoftLock.applyOps (l : SoftLock) (ops : List SLOp) : SoftLock :=
  ops.foldl SoftLock.applyOp l

/-- States a `SoftLock` can actually be in: those produced from
`NewSoftLock` by some sequence of public calls. -/
def SoftLock.Reachable (l : SoftLock) : Prop :=
  ∃ ops : List SLOp, SoftLock.applyOps NewSoftLock ops = l

/-- The structural invariant of reachable lock states: the `_started`
flag and the `started` channel are always updated together, and `wait`
is only ever closed after `_started` is set. -/
def SoftLock.Inv (l : SoftLock) : Prop :=
  l.startedFlag = l.startedCh ∧ (l.waitCh = true → l.startedFlag = true)

theorem SoftLock.inv_new : SoftLock.Inv NewSoftLock := by
  constructor <;> simp [NewSoftLock]

theorem SoftLock.inv_applyOp (l : SoftLock) (op : SLOp) (h : l.Inv) :
    (l.applyOp op).Inv := by
  obtain ⟨a, b, c, d⟩ := l
  obtain ⟨h1, h2⟩ := h
  cases op <;>
    simp_all [SoftLock.applyOp, SoftLock.Inv, SoftLock.Start, SoftLock.Release,
      SoftLock.Done, SoftLock.Close] <;>
    cases a <;> cases b <;> cases c <;> cases d <;> simp_all

theorem SoftLock.inv_applyOps (l : SoftLock) (ops : List SLOp) (h : l.Inv) :
    (l.applyOps ops).Inv := by
  induction ops generalizing l with
  | nil => exact h
  | cons op rest ih =>
    exact ih _ (l.inv_applyOp op h)

theorem SoftLock.inv_of_reachable (l : SoftLock) (h : l.Reachable) : l.Inv := by
  obtain ⟨ops, rfl⟩ := h
  exact SoftLock.inv_applyOps _ ops SoftLock.inv_new

/-! ## FileFlag

`FileFlag` (src/pkg/fileflag/fileflag.go) owns a `SoftLock` and an
fsnotify watcher handle. The watcher is external to the repository; it
is modelled by the set of directories registered with `Add` and an
open/closed bit, and a receive from its `Events`/`Errors` channels is
modelled as a message handed to one iteration of the `Watch` loop.
`filepath.Dir` is likewise external and is modelled as an abstract
function supplied by the environment. -/

/-- Model of the fsnotify watcher handle: which paths `Add` registered,
and whether the handle is still open. -/
structure WatcherModel where
  isOpen : Bool
  watched : List String
deriving DecidableEq, Repr

/-- The `FileFlag` record of src/pkg/fileflag/fileflag.go: the watched
filename, the owned `SoftLock`, and the watcher handle. -/
structure FileFlag where
  filename : String
  lock : SoftLock
  watcher : WatcherModel
deriving DecidableEq, Repr

/-- Environment for `NewFileFlag`: whether `fsnotify.NewWatcher` fails,
on which paths `watcher.Add` fails, and the external `filepath.Dir`. -/
structure NotifyEnv where
  newWatcherFails : Bool
  addFails : String → Bool
  dir : String → String

/-- Errors surfaced by `NewFileFlag` (opaque to the repository's code). -/
inductive GoError
  | newWatcherError
  | addError (path : String)
deriving DecidableEq, Repr

/-- `NewFileFlag(filename)`: create the watcher (propagating a creation
error with a nil flag), register the parent directory
`filepath.Dir(filename)` with `Add` (propagating an add error with a nil
flag), then build the record with a fresh `SoftLock`. The pair models
Go's `(ff *FileFlag, err error)` results, `none` standing for nil. -/
def NewFileFlag (env : NotifyEnv) (filename : String) :
    Option FileFlag × Option GoError :=
  if env.newWatcherFails then (none, some .newWatcherError)
  else
    let path := env.dir filename
    if env.addFails path then (none, some (.addError path))
    else
      (some { filename := filename, lock := NewSoftLock,
              watcher := { isOpen := true, watched := [path] } }, none)

/-- `FileFlag.Close` body on a non-nil receiver, shared by every
revision: close the watcher handle and force the lock terminal via
`SoftLock.Close` (both deferred; their order does not affect the
state). -/
def FileFlag.CloseBody (ff : FileFlag) : FileFlag :=
  { ff with watcher := { ff.watcher with isOpen := false },
            lock := ff.lock.Close }

/-- A Go runtime fault. -/
inductive GoPanic
  | nilDereference
deriving DecidableEq, Repr

/-- `FileFlag.Close` as written in src/pkg/fileflag/fileflag.go: no nil
guard, so on a nil receiver the deferred `ff.watcher.Close()` evaluates
`ff.watcher` and faults with a nil-pointer dereference. -/
def FileFlag.CloseGo (ff : Option FileFlag) : Except GoPanic FileFlag :=
  match ff with
  | none => .error .nilDereference
  | some s => .ok (FileFlag.CloseBody s)

/-- `FileFlag.Close` as written in the revisions kept in
src/unnamed/part_010: `if ff == nil { return }` makes a nil receiver a
no-op; otherwise the same teardown runs. -/
def FileFlag.CloseNilSafe (ff : Option FileFlag) : Except GoPanic (Option FileFlag) :=
  match ff with
  | none => .ok none
  | some s => .ok (some (FileFlag.CloseBody s))

/-- One message received by the `select` inside `Watch()` in
src/pkg/fileflag/fileflag.go (that revision has no timeout arm):
either an `Events` delivery — name plus whether the op mask has the
Create / Remove bits, `ok = false` for a closed channel — or an
`Errors` delivery. -/
inductive WatchMsg
  | event (name : String) (isCreate : Bool) (isRemove : Bool) (ok : Bool)
  | errorsMsg (ok : Bool)
deriving DecidableEq, Repr

/-- What one loop iteration does with control: `ret` leaves `Watch`,
`cont` goes around the loop again. -/
inductive Directive
  | ret
  | cont
deriving DecidableEq, Repr

/-- One iteration of the `for { select { ... } }` loop of `Watch()` in
src/pkg/fileflag/fileflag.go: on an event, return if the channel is
closed, skip foreign names, `Start` on Create then continue, `Release`
on Remove then continue; on an error value, return if the channel is
closed, otherwise call `ff.Close()`, log, and continue. -/
def FileFlag.watchStep (ff : FileFlag) : WatchMsg → FileFlag × Directive
  | .event name isCreate isRemove ok =>
    if !ok then (ff, .ret)
    else if name ≠ ff.filename then (ff, .cont)
    else if isCreate then ({ ff with lock := (ff.lock.Start).1 }, .cont)
    else if isRemove then ({ ff with lock := ff.lock.Release }, .cont)
    else (ff, .cont)
  | .errorsMsg ok =>
    if !ok then (ff, .ret)
    else (FileFlag.CloseBody ff, .cont)

/-- One iteration of the `Events`/`Errors` arms of `Watch()` in the
revisions of src/unnamed/part_010 (their extra timeout arm is not
involved in the claims): the Remove branch does `return` after
`Release`, and the error branch defers `Close` and calls `log.Fatal`,
which exits the process without running the deferred call. -/
inductive DirectiveM
  | ret
  | cont
  | fatalExit
deriving DecidableEq, Repr

/-- The part_010 revision of the loop body (see `DirectiveM`). -/
def FileFlag.watchStepMature (ff : FileFlag) : WatchMsg → FileFlag × DirectiveM
  | .event name isCreate isRemove ok =>
    if !ok then (ff, .ret)
    else if name ≠ ff.filename then (ff, .cont)
    else if isCreate then ({ ff with lock := (ff.lock.Start).1 }, .cont)
    else if isRemove then ({ ff with lock := ff.lock.Release }, .ret)
    else (ff, .cont)
  | .errorsMsg ok =>
    if !ok then (ff, .ret)
    else (ff, .fatalExit)

/-! ## Helper lemmas -/

/-- A sequence of `n` calls to `Start()` (the mutex serializes any
concurrent set of calls into such a sequence), returning the final
state and the list of returned booleans in call order. -/
def SoftLock.startSeq (l : SoftLock) : Nat → SoftLock × List Bool
  | 0 => (l, [])
  | n + 1 =>
    let p := l.Start
    let q := p.1.startSeq n
    (q.1, p.2 :: q.2)

theorem SoftLock.startSeq_stationary (l : SoftLock) (h : l.startedCh = true) :
    ∀ n : Nat, l.startSeq n = (l, List.replicate n false) := by
  intro n
  induction n with
  | zero => simp [SoftLock.startSeq]
  | succ m ih =>
    have hs : l.Start = (l, false) := by
      simp [SoftLock.Start, h]
    simp [SoftLock.startSeq, hs, ih, List.replicate_succ]

theorem count_true_replicate_false (m : Nat) :
    (List.replicate m false).count true = 0 := by
  induction m with
  | zero => simp
  | succ k ih => simp [List.replicate_succ, List.count_cons, ih]

/-- `Close` forces the terminal state from any state satisfying the
structural invariant, and is idempotent from any state at all. -/
theorem SoftLock.close_terminal_of_inv (l : SoftLock) (h : l.Inv) :
    (l.Close).Started = true ∧ (l.Close).Released = true ∧
      (l.Close).Finished = true := by
  obtain ⟨a, b, c, d⟩ := l
  obtain ⟨h1, h2⟩ := h
  simp only at h1 h2
  subst h1
  cases a <;> cases c <;> cases d <;>
    simp_all [SoftLock.Close, SoftLock.Start, SoftLock.Release, SoftLock.Done,
      SoftLock.Started, SoftLock.Released, SoftLock.Finished]

theorem SoftLock.close_close (l : SoftLock) : (l.Close).Close = l.Close := by
  obtain ⟨a, b, c, d⟩ := l
  cases a <;> cases b <;> cases c <;> cases d <;> decide

theorem SoftLock.release_of_not_started (l : SoftLock)
    (h : l.startedFlag = false) : l.Release = l := by
  simp [SoftLock.Release, h]

/-- Finitely many repeated calls to `Release()`. -/
def SoftLock.releaseN (l : SoftLock) : Nat → SoftLock
  | 0 => l
  | n + 1 => (l.Release).releaseN n

theorem SoftLock.releaseN_of_not_started (l : SoftLock)
    (h : l.startedFlag = false) : ∀ n : Nat, l.releaseN n = l := by
  intro n
  induction n with
  | zero => rfl
  | succ m ih =>
    simp [SoftLock.releaseN, SoftLock.release_of_not_started l h, ih]

theorem SoftLock.applyOp_mono (l : SoftLock) (op : SLOp) :
    (l.Started = true → (l.applyOp op).Started = true) ∧
      (l.Released = true → (l.applyOp op).Released = true) ∧
      (l.Finished = true → (l.applyOp op).Finished = true) := by
  obtain ⟨a, b, c, d⟩ := l
  cases op <;> cases a <;> cases b <;> cases c <;> cases d <;> decide

/-! ## Claim theorems: SoftLock -/

/-- C1: starting from a fresh SoftLock, in any serialization of any
number of `Start()` calls (the mutex serializes concurrent calls),
exactly one call — the first to acquire the guard — returns `true` and
all the others return `false`, and after any call has returned,
`Started()` returns `true` (the state after every call equals the state
after the first call, for which `Started()` is `true`). -/
theorem softlock_start_exactly_one_winner (n : Nat) (h : 0 < n) :
    (NewSoftLock.startSeq n).2 = true :: List.replicate (n - 1) false ∧
      ((NewSoftLock.startSeq n).2).count true = 1 ∧
      (NewSoftLock.startSeq n).1 = (NewSoftLock.Start).1 ∧
      ((NewSoftLock.startSeq n).1).Started = true := by
  obtain ⟨m, rfl⟩ : ∃ m : Nat, n = m + 1 :=
    ⟨n - 1, (Nat.succ_pred_eq_of_pos h).symm⟩
  have hs : NewSoftLock.Start =
      ({ startedFlag := true, startedCh := true, waitCh := false,
         doneCh := false }, true) := by decide
  have hstat := SoftLock.startSeq_stationary
    { startedFlag := true, startedCh := true, waitCh := false, doneCh := false }
    rfl m
  refine ⟨?_, ?_, ?_, ?_⟩ <;>
    simp [SoftLock.startSeq, hs, hstat, List.count_cons,
      count_true_replicate_false, SoftLock.Started]

/-- C1 witness: three `Start()` calls on a fresh lock return
`[true, false, false]` and leave `Started()` true. -/
theorem softlock_start_exactly_one_winner_witness :
    (NewSoftLock.startSeq 3).2 = true :: List.replicate 2 false ∧
      ((NewSoftLock.startSeq 3).2).count true = 1 ∧
      (NewSoftLock.startSeq 3).1 = (NewSoftLock.Start).1 ∧
      ((NewSoftLock.startSeq 3).1).Started = true :=
  softlock_start_exactly_one_winner 3 (by decide)

/-- C2 counterexample: calling `Done()` on an Idle (never started)
SoftLock does not cascade — afterward `Finished()` is `true` but
`Started()` and `Released()` are still `false`, so the claim that after
`Done()` returns all three queries are `true` fails at the fresh lock. -/
theorem softlock_done_idle_cex :
    ((NewSoftLock.Done).Finished = true) ∧
      ((NewSoftLock.Done).Started = false) ∧
      ((NewSoftLock.Done).Released = false) := by decide

/-- C2 (amended): `Done()` fires the `done` signal unconditionally and
idempotently in any phase, including Idle, so `Finished()` is `true`
after it returns, but it advances neither `Started()` nor `Released()`;
the cascade through the Started and Released transitions is performed by
`Close()`, after which `Started()`, `Released()` and `Finished()` are
all `true`, preserving the ordering Idle < Started < Released < Done
even when short-circuited. -/
theorem softlock_done_and_close_cascade (l : SoftLock) (h : l.Reachable) :
    (l.Done).Finished = true ∧ (l.Done).Done = l.Done ∧
      (l.Done).Started = l.Started ∧ (l.Done).Released = l.Released ∧
      (l.Close).Started = true ∧ (l.Close).Released = true ∧
      (l.Close).Finished = true := by
  have hc := SoftLock.close_terminal_of_inv l (l.inv_of_reachable h)
  refine ⟨?_, ?_, ?_, ?_, hc.1, hc.2.1, hc.2.2⟩ <;>
    (obtain ⟨a, b, c, d⟩ := l;
     cases d <;> simp [SoftLock.Done, SoftLock.Finished, SoftLock.Started,
       SoftLock.Released])

/-- C2 witness: at the fresh lock, `Done()` leaves `Finished()` true and
the other phases unchanged, and `Close()` forces all three. -/
theorem softlock_done_and_close_cascade_witness :
    (NewSoftLock.Done).Finished = true ∧
      (NewSoftLock.Done).Done = NewSoftLock.Done ∧
      (NewSoftLock.Done).Started = NewSoftLock.Started ∧
      (NewSoftLock.Done).Released = NewSoftLock.Released ∧
      (NewSoftLock.Close).Started = true ∧
      (NewSoftLock.Close).Released = true ∧
      (NewSoftLock.Close).Finished = true :=
  softlock_done_and_close_cascade NewSoftLock ⟨[], rfl⟩

/-- C3: from any reachable state, after `Close()` the queries
`Started()`, `Released()` and `Finished()` all return `true`, and a
repeated `Close()` produces no further state change (so any number of
calls leaves the same terminal state). -/
theorem softlock_close_idempotent_terminal (l : SoftLock) (h : l.Reachable) :
    (l.Close).Started = true ∧ (l.Close).Released = true ∧
      (l.Close).Finished = true ∧ (l.Close).Close = l.Close := by
  have hc := SoftLock.close_terminal_of_inv l (l.inv_of_reachable h)
  exact ⟨hc.1, hc.2.1, hc.2.2, SoftLock.close_close l⟩

/-- C3 witness: `Close()` on the fresh lock. -/
theorem softlock_close_idempotent_terminal_witness :
    (NewSoftLock.Close).Started = true ∧ (NewSoftLock.Close).Released = true ∧
      (NewSoftLock.Close).Finished = true ∧
      (NewSoftLock.Close).Close = NewSoftLock.Close :=
  softlock_close_idempotent_terminal NewSoftLock ⟨[], rfl⟩

/-- C4: on a reachable SoftLock with `Started()` false, any number of
`Release()` calls leave `Released()` false; a later `Start()` alone
still leaves `Released()` false (the release was not queued); and once
`Start()` has been called, a subsequent `Release()` makes `Released()`
true. -/
theorem softlock_release_requires_start (l : SoftLock) (n : Nat)
    (hr : l.Reachable) (h : l.Started = false) :
    (l.releaseN n).Released = false ∧
      (((l.releaseN n).Start).1).Released = false ∧
      (((l.Start).1.Release)).Released = true := by
  obtain ⟨hinv1, hinv2⟩ := l.inv_of_reachable hr
  have hflag : l.startedFlag = false := h
  have hwait : l.waitCh = false := by
    cases hw : l.waitCh
    · rfl
    · exact absurd (hinv2 hw) (by simp [hflag])
  have hiter := l.releaseN_of_not_started hflag n
  rw [hiter]
  obtain ⟨a, b, c, d⟩ := l
  simp only at hflag hwait hinv1
  subst hflag hwait hinv1
  refine ⟨rfl, ?_, ?_⟩ <;>
    simp [SoftLock.Start, SoftLock.Release, SoftLock.Released]

/-- C4 witness: two `Release()` calls on the fresh lock leave
`Released()` false, a following `Start()` still leaves it false, and
`Start()` then `Release()` makes it true. -/
theorem softlock_release_requires_start_witness :
    ((NewSoftLock.releaseN 2).Released = false) ∧
      ((((NewSoftLock.releaseN 2).Start).1).Released = false) ∧
      ((((NewSoftLock.Start).1.Release)).Released = true) :=
  softlock_release_requires_start NewSoftLock 2 ⟨[], rfl⟩ (by decide)

/-- C5: `Wait()` blocks the caller exactly when `Started()` is true and
`Released()` is false — so it returns immediately on a never-started
lock (the Idle passthrough) and on an already-released lock — and after
`Release()` runs, `Wait()` no longer blocks. -/
theorem softlock_wait_blocking (l : SoftLock) :
    l.WaitBlocks = (l.Started && !l.Released) ∧
      (l.Release).WaitBlocks = false := by
  obtain ⟨a, b, c, d⟩ := l
  cases a <;> cases c <;>
    simp [SoftLock.WaitBlocks, SoftLock.Started, SoftLock.Released,
      SoftLock.Release]

/-- C6: SoftLock phase is monotonic — once `Started()` returns true it
returns true after any further sequence of public operations, and
likewise for `Released()` and `Finished()`; no phase is revisited. -/
theorem softlock_phase_monotonic (l : SoftLock) (ops : List SLOp) :
    (l.Started = true → (l.applyOps ops).Started = true) ∧
      (l.Released = true → (l.applyOps ops).Released = true) ∧
      (l.Finished = true → (l.applyOps ops).Finished = true) := by
  induction ops generalizing l with
  | nil => exact ⟨fun h => h, fun h => h, fun h => h⟩
  | cons op rest ih =>
    have hm := l.applyOp_mono op
    have hr := ih (l.applyOp op)
    exact ⟨fun h => hr.1 (hm.1 h), fun h => hr.2.1 (hm.2.1 h),
      fun h => hr.2.2 (hm.2.2 h)⟩

/-- C6 witness: from the all-true terminal state, a further
`Start(); Release(); Done()` sequence leaves all three queries true. -/
theorem softlock_phase_monotonic_witness :
    ((NewSoftLock.Close).applyOps [SLOp.start, SLOp.release, SLOp.doneOp]).Started = true ∧
      ((NewSoftLock.Close).applyOps [SLOp.start, SLOp.release, SLOp.doneOp]).Released = true ∧
      ((NewSoftLock.Close).applyOps [SLOp.start, SLOp.release, SLOp.doneOp]).Finished = true :=
  ⟨(softlock_phase_monotonic NewSoftLock.Close [SLOp.start, SLOp.release, SLOp.doneOp]).1 (by decide),
   (softlock_phase_monotonic NewSoftLock.Close [SLOp.start, SLOp.release, SLOp.doneOp]).2.1 (by decide),
   (softlock_phase_monotonic NewSoftLock.Close [SLOp.start, SLOp.release, SLOp.doneOp]).2.2 (by decide)⟩

/-! ## Claim theorems: FileFlag -/

/-- Concrete FileFlag whose lock has been started, for exercising the
removal branch of the watch loop. -/
def ffStarted : FileFlag :=
  { filename := "/tmp/flag", lock := (NewSoftLock.Start).1,
    watcher := { isOpen := true, watched := ["/tmp"] } }

/-- C7 counterexample: in `Watch()` of src/pkg/fileflag/fileflag.go, a
removal event for the watched path fires `Release` but the branch ends
in `continue`, so the iteration directive is `cont`, not `ret` — the
loop keeps looping after processing the removal, contrary to the
claim. -/
theorem fileflag_watch_remove_cex :
    (FileFlag.watchStep ffStarted (.event "/tmp/flag" false true true)).1.lock.Released = true ∧
      (FileFlag.watchStep ffStarted (.event "/tmp/flag" false true true)).2 = Directive.cont ∧
      Directive.cont ≠ Directive.ret := by decide

/-- C7 (amended): when a directory-change event whose name matches the
watched path is a removal (and not a creation) event, the loop fires the
SoftLock's `Release`; in the revisions kept in src/unnamed/part_010 it
then terminates (returns), while in src/pkg/fileflag/fileflag.go it
continues looping. -/
theorem fileflag_watch_remove_release (ff : FileFlag) :
    FileFlag.watchStep ff (.event ff.filename false true true) =
      ({ ff with lock := ff.lock.Release }, Directive.cont) ∧
      FileFlag.watchStepMature ff (.event ff.filename false true true) =
        ({ ff with lock := ff.lock.Release }, DirectiveM.ret) := by
  constructor <;> simp [FileFlag.watchStep, FileFlag.watchStepMature]

/-- Concrete FileFlag with a fresh lock, for exercising the error branch
of the watch loop. -/
def ffFresh : FileFlag :=
  { filename := "/tmp/flag", lock := NewSoftLock,
    watcher := { isOpen := true, watched := ["/tmp"] } }

/-- C8 counterexample: in `Watch()` of src/pkg/fileflag/fileflag.go, an
error value received from the watcher's error channel triggers
`ff.Close()` but the branch has no `return`, so the iteration directive
is `cont` — the loop continues to iterate rather than terminating as
the claim states. -/
theorem fileflag_watch_error_cex :
    (FileFlag.watchStep ffFresh (.errorsMsg true)).1 = FileFlag.CloseBody ffFresh ∧
      (FileFlag.watchStep ffFresh (.errorsMsg true)).2 = Directive.cont ∧
      Directive.cont ≠ Directive.ret := by decide

/-- C8 (amended): when `Watch()` receives an error value from the
notification facility's error channel, it treats it as unrecoverable by
triggering `Close()` — forcing the SoftLock to its terminal state
(Started, Released, Finished all true) and closing the watcher handle —
and then continues the loop; the loop terminates on a following
iteration because the closed watcher's channels deliver not-ok, on
which the loop returns. -/
theorem fileflag_watch_error_close (ff : FileFlag) (h : ff.lock.Reachable) :
    FileFlag.watchStep ff (.errorsMsg true) = (FileFlag.CloseBody ff, Directive.cont) ∧
      (FileFlag.CloseBody ff).watcher.isOpen = false ∧
      (FileFlag.CloseBody ff).lock.Started = true ∧
      (FileFlag.CloseBody ff).lock.Released = true ∧
      (FileFlag.CloseBody ff).lock.Finished = true ∧
      (FileFlag.watchStep (FileFlag.CloseBody ff) (.errorsMsg false)).2 = Directive.ret ∧
      (FileFlag.watchStep (FileFlag.CloseBody ff) (.event ff.filename false false false)).2 = Directive.ret := by
  have hc := SoftLock.close_terminal_of_inv ff.lock (ff.lock.inv_of_reachable h)
  refine ⟨by simp [FileFlag.watchStep], rfl, hc.1, hc.2.1, hc.2.2, rfl, rfl⟩

/-- C8 witness: the error branch at a concrete FileFlag. -/
theorem fileflag_watch_error_close_witness :
    FileFlag.watchStep ffFresh (.errorsMsg true) = (FileFlag.CloseBody ffFresh, Directive.cont) ∧
      (FileFlag.CloseBody ffFresh).watcher.isOpen = false ∧
      (FileFlag.CloseBody ffFresh).lock.Started = true ∧
      (FileFlag.CloseBody ffFresh).lock.Released = true ∧
      (FileFlag.CloseBody ffFresh).lock.Finished = true ∧
      (FileFlag.watchStep (FileFlag.CloseBody ffFresh) (.errorsMsg false)).2 = Directive.ret ∧
      (FileFlag.watchStep (FileFlag.CloseBody ffFresh) (.event ffFresh.filename false false false)).2 = Directive.ret :=
  fileflag_watch_error_close ffFresh ⟨[], rfl⟩

/-- C9 counterexample: `FileFlag.Close()` as written in
src/pkg/fileflag/fileflag.go has no nil guard, so calling it on a nil
FileFlag dereferences the nil receiver and faults rather than being a
no-op. -/
theorem fileflag_close_nil_cex :
    FileFlag.CloseGo none = Except.error GoPanic.nilDereference ∧
      ∃ p : GoPanic, FileFlag.CloseGo none = Except.error p := ⟨rfl, _, rfl⟩

/-- C9 (amended): on a non-nil FileFlag, `Close()` tears down the
notification handle and forces the owned SoftLock to its terminal state
via `SoftLock.Close()`; the nil guard that makes `Close()` on a nil
FileFlag a no-op exists in the revisions kept in src/unnamed/part_010,
while in src/pkg/fileflag/fileflag.go a nil call faults on the nil
receiver. -/
theorem fileflag_close_behavior (ff : FileFlag) (h : ff.lock.Reachable) :
    FileFlag.CloseGo (some ff) = Except.ok (FileFlag.CloseBody ff) ∧
      FileFlag.CloseNilSafe none = Except.ok none ∧
      FileFlag.CloseNilSafe (some ff) = Except.ok (some (FileFlag.CloseBody ff)) ∧
      (FileFlag.CloseBody ff).watcher.isOpen = false ∧
      (FileFlag.CloseBody ff).lock.Started = true ∧
      (FileFlag.CloseBody ff).lock.Released = true ∧
      (FileFlag.CloseBody ff).lock.Finished = true := by
  have hc := SoftLock.close_terminal_of_inv ff.lock (ff.lock.inv_of_reachable h)
  exact ⟨rfl, rfl, rfl, rfl, hc.1, hc.2.1, hc.2.2⟩

/-- C9 witness: closing a concrete non-nil FileFlag. -/
theorem fileflag_close_behavior_witness :
    FileFlag.CloseGo (some ffStarted) = Except.ok (FileFlag.CloseBody ffStarted) ∧
      FileFlag.CloseNilSafe none = Except.ok none ∧
      FileFlag.CloseNilSafe (some ffStarted) = Except.ok (some (FileFlag.CloseBody ffStarted)) ∧
      (FileFlag.CloseBody ffStarted).watcher.isOpen = false ∧
      (FileFlag.CloseBody ffStarted).lock.Started = true ∧
      (FileFlag.CloseBody ffStarted).lock.Released = true ∧
      (FileFlag.CloseBody ffStarted).lock.Finished = true :=
  fileflag_close_behavior ffStarted ⟨[SLOp.start], rfl⟩

/-- C10: `NewFileFlag(path)` returns exactly one of its two results —
a non-nil FileFlag with a nil error, or a nil FileFlag with a non-nil
error, the latter exactly when the watcher cannot be created or the
parent directory cannot be watched — and on success the watch is
registered on the parent directory `filepath.Dir(path)`, not on `path`
itself. -/
theorem newfileflag_exclusive_results (env : NotifyEnv) (fn : String) :
    (((NewFileFlag env fn).1.isSome = true ∧ (NewFileFlag env fn).2 = none) ∨
      ((NewFileFlag env fn).1 = none ∧ (NewFileFlag env fn).2.isSome = true)) ∧
      (∀ s : FileFlag, (NewFileFlag env fn).1 = some s →
        s.watcher.watched = [env.dir fn] ∧
          (env.dir fn ≠ fn → fn ∉ s.watcher.watched)) ∧
      ((NewFileFlag env fn).2.isSome = true ↔
        (env.newWatcherFails = true ∨ env.addFails (env.dir fn) = true)) := by
  by_cases h1 : env.newWatcherFails
  · refine ⟨Or.inr ?_, ?_, ?_⟩ <;> simp [NewFileFlag, h1]
  · by_cases h2 : env.addFails (env.dir fn)
    · refine ⟨Or.inr ?_, ?_, ?_⟩ <;> simp [NewFileFlag, h1, h2]
    · have hres : NewFileFlag env fn =
          (some { filename := fn, lock := NewSoftLock,
                  watcher := { isOpen := true, watched := [env.dir fn] } },
            none) := by
        simp [NewFileFlag, h1, h2]
      refine ⟨Or.inl (by simp [hres]), ?_, by simp [hres, h1, h2]⟩
      intro s hs
      rw [hres] at hs
      injection hs with hs
      subst hs
      exact ⟨rfl, fun hne hmem => hne ((List.mem_singleton.mp hmem).symm)⟩

/-- Environment in which the watcher is created and `Add` succeeds, and
every path's parent directory is `"/tmp"`. -/
def envOk : NotifyEnv :=
  { newWatcherFails := false, addFails := fun _ => false, dir := fun _ => "/tmp" }

/-- C10 witness: at a concrete environment and path, construction
succeeds with a nil error and the watch list is exactly the parent
directory, which is not the path itself. -/
theorem newfileflag_exclusive_results_witness :
    (((NewFileFlag envOk "/tmp/flag").1.isSome = true ∧
        (NewFileFlag envOk "/tmp/flag").2 = none) ∨
      ((NewFileFlag envOk "/tmp/flag").1 = none ∧
        (NewFileFlag envOk "/tmp/flag").2.isSome = true)) ∧
      (ffFresh.watcher.watched = [envOk.dir "/tmp/flag"] ∧
        "/tmp/flag" ∉ ffFresh.watcher.watched) :=
  ⟨(newfileflag_exclusive_results envOk "/tmp/flag").1,
   ⟨((newfileflag_exclusive_results envOk "/tmp/flag").2.1 ffFresh (by decide)).1,
    ((newfileflag_exclusive_results envOk "/tmp/flag").2.1 ffFresh (by decide)).2
      (by decide)⟩⟩
